import Mathlib

/-!
Verification development for the claude-usage-monitor extension.

Shallow embedding of the core pipeline:
* `src/claudeDataLoader.js` (the v2.7.1 loader, cited as `src/unnamed/part_002`):
  JSONL parsing, validity filtering, deduplication, aggregation, and the
  current-session snapshot (`getCurrentSessionUsage`).
* `src/auth.js`: cookie check and two-phase session validation.
* `src/sessionTracker.js`: persisted session token updates.
* `src/usageHistory.js`: capped usage-history data points.

JS numbers that hold token counts and timestamps are modelled as `Int`;
optional JSON fields are `Option`; a line whose `JSON.parse` throws is
modelled as `none` in a `List (Option LogEntry)`.
-/

namespace ClaudeMonitor

/-- The `message.usage` object of a log record.  A field is `some n` when it is
present as a number in the JSON, `none` when absent or not a number
(`typeof !== 'number'`). -/
structure Usage where
  input_tokens : Option Int
  output_tokens : Option Int
  cache_creation_input_tokens : Option Int
  cache_read_input_tokens : Option Int
  deriving Repr, DecidableEq

/-- The `message` object of a log record. -/
structure Message where
  id : Option String
  model : Option String
  usage : Option Usage
  deriving Repr, DecidableEq

/-- One successfully JSON-parsed line of a JSONL log file; only the fields the
data loader inspects are modelled. -/
structure LogEntry where
  type : Option String
  message : Option Message
  requestId : Option String
  isApiErrorMessage : Bool
  deriving Repr, DecidableEq

/-- Embeds `isValidUsageRecord` (claudeDataLoader.js): the record must carry numeric
`message.usage.input_tokens` and `message.usage.output_tokens`, must not have
model `<synthetic>`, and must not be flagged as an API error message. -/
def isValidUsageRecord (r : LogEntry) : Bool :=
  match r.message with
  | none => false
  | some m =>
    match m.usage with
    | none => false
    | some u =>
      u.input_tokens.isSome && u.output_tokens.isSome &&
      m.model ≠ some "<synthetic>" && !r.isApiErrorMessage

/-- Loop body of `parseJsonlFile`: each line is parsed independently
(`none` = `JSON.parse` threw, the line is skipped), then kept only if
`isValidUsageRecord` accepts it; kept records are pushed in order. -/
def parseJsonlLoop : List (Option LogEntry) → List LogEntry → List LogEntry
  | [], acc => acc
  | l :: ls, acc =>
    match l with
    | none => parseJsonlLoop ls acc
    | some r =>
      if isValidUsageRecord r then parseJsonlLoop ls (acc ++ [r])
      else parseJsonlLoop ls acc

/-- Embeds `parseJsonlFile` (claudeDataLoader.js) on the list of non-empty lines of a
file: accumulates the valid records in file order. -/
def parseJsonlFile (lines : List (Option LogEntry)) : List LogEntry :=
  parseJsonlLoop lines []

/-- Embeds `getRecordHash` (claudeDataLoader.js): string concatenation
`(record.message?.id || '') + '-' + (record.requestId || '')`. -/
def getRecordHash (r : LogEntry) : String :=
  ((r.message.bind (·.id)).getD "") ++ "-" ++ (r.requestId.getD "")

/-- Dedup loop of `loadUsageRecords`: a `seen` set of hashes (modelled as a
list), keeping the first record for each hash. -/
def dedupLoop : List LogEntry → List String → List LogEntry → List LogEntry
  | [], _, acc => acc
  | r :: rs, seen, acc =>
    let h := getRecordHash r
    if h ∈ seen then dedupLoop rs seen acc
    else dedupLoop rs (h :: seen) (acc ++ [r])

/-- The deduplication stage of `loadUsageRecords`. -/
def dedupeRecords (rs : List LogEntry) : List LogEntry :=
  dedupLoop rs [] []

/-- Aggregated totals returned by `loadUsageRecords`. -/
structure UsageTotals where
  totalTokens : Int
  inputTokens : Int
  outputTokens : Int
  cacheCreationTokens : Int
  cacheReadTokens : Int
  messageCount : Nat
  deriving Repr, DecidableEq

/-- Reads `record.message.usage.input_tokens || 0` as read by the aggregation loop. -/
def inputOf (r : LogEntry) : Int :=
  (((r.message.bind (·.usage)).bind (·.input_tokens)).getD 0)

/-- Reads `record.message.usage.output_tokens || 0` as read by the aggregation loop. -/
def outputOf (r : LogEntry) : Int :=
  (((r.message.bind (·.usage)).bind (·.output_tokens)).getD 0)

/-- Reads `record.message.usage.cache_creation_input_tokens || 0`. -/
def cacheCreationOf (r : LogEntry) : Int :=
  (((r.message.bind (·.usage)).bind (·.cache_creation_input_tokens)).getD 0)

/-- Reads `record.message.usage.cache_read_input_tokens || 0`. -/
def cacheReadOf (r : LogEntry) : Int :=
  (((r.message.bind (·.usage)).bind (·.cache_read_input_tokens)).getD 0)

/-- Aggregation stage of `loadUsageRecords`: sums the four token categories
over the (already deduplicated) records and counts them. -/
def aggregateRecords (rs : List LogEntry) : UsageTotals :=
  let i := (rs.map inputOf).sum
  let o := (rs.map outputOf).sum
  let cc := (rs.map cacheCreationOf).sum
  let cr := (rs.map cacheReadOf).sum
  { totalTokens := i + o + cc + cr
    inputTokens := i
    outputTokens := o
    cacheCreationTokens := cc
    cacheReadTokens := cr
    messageCount := rs.length }

/-- Embeds `loadUsageRecords` after file collection and the optional timestamp
filter: deduplicate, then aggregate. -/
def loadTotals (rs : List LogEntry) : UsageTotals :=
  aggregateRecords (dedupeRecords rs)

/-- Accumulator-free reformulation of the dedup loop, for reasoning. -/
def dedupAux : List LogEntry → List String → List LogEntry
  | [], _ => []
  | r :: rs, seen =>
    if getRecordHash r ∈ seen then dedupAux rs seen
    else r :: dedupAux rs (getRecordHash r :: seen)

/-- Reference description of deduplication, independent of the seen-set
loop: keep each record and remove every later record with the same hash
("the input with later same-hash duplicates removed, keeping the first
occurrence"). -/
def keepFirstByHash : List LogEntry → List LogEntry
  | [] => []
  | r :: rs =>
    r :: keepFirstByHash (rs.filter (fun x => getRecordHash x ≠ getRecordHash r))
termination_by l => l.length
decreasing_by
  simp only [List.length_cons]
  have := List.length_filter_le
    (fun x => decide (getRecordHash x ≠ getRecordHash r)) rs
  omega

/-! ### Current-session snapshot (`getCurrentSessionUsage`) -/

/-- Result record of `getCurrentSessionUsage`. -/
structure SessionUsage where
  totalTokens : Int
  inputTokens : Int
  outputTokens : Int
  cacheCreationTokens : Int
  cacheReadTokens : Int
  messageCount : Nat
  isActive : Bool
  deriving Repr, DecidableEq

/-- The inactive all-zero snapshot returned on every non-active path of
`getCurrentSessionUsage`. -/
def zeroSession : SessionUsage :=
  { totalTokens := 0, inputTokens := 0, outputTokens := 0,
    cacheCreationTokens := 0, cacheReadTokens := 0,
    messageCount := 0, isActive := false }

/-- One iteration of the end-to-start scan: a line qualifies when it parsed,
has `type === 'assistant'`, carries `message.usage`, and
`(cache_creation_input_tokens || 0) + (cache_read_input_tokens || 0) > 0`;
the loop then records the pair (cacheCreation, cacheRead). -/
def qualifyingCache (l : Option LogEntry) : Option (Int × Int) :=
  match l with
  | none => none
  | some e =>
    match e.message with
    | none => none
    | some m =>
      match m.usage with
      | none => none
      | some u =>
        if e.type = some "assistant" then
          let cc := u.cache_creation_input_tokens.getD 0
          let cr := u.cache_read_input_tokens.getD 0
          if cc + cr > 0 then some (cc, cr) else none
        else none

/-- The end-to-start line scan of `getCurrentSessionUsage`: walk the lines
from the last toward the first, stop at the first qualifying assistant line,
and report its cache fields, with `sessionTokens = cacheRead` only and
`messageCount = lines.length`; if no line qualifies, all counters stay zero. -/
def scanSession (lines : List (Option LogEntry)) : SessionUsage :=
  match lines.reverse.findSome? qualifyingCache with
  | some (cc, cr) =>
    { totalTokens := cr
      inputTokens := 0
      outputTokens := 0
      cacheCreationTokens := cc
      cacheReadTokens := cr
      messageCount := lines.length
      isActive := cr > 0 }
  | none => zeroSession

/-- Models JS `String.prototype.startsWith` structurally on the character
list (the builtin `String.startsWith` does not reduce in the kernel). -/
def strStartsWith (s p : String) : Bool :=
  p.toList.isPrefixOf s.toList

/-- Models JS `String.prototype.endsWith` structurally on the character
list. -/
def strEndsWith (s p : String) : Bool :=
  p.toList.isSuffixOf s.toList

/-- One character of the case-insensitive hex class `[0-9a-f]` with the `i`
regex flag. -/
def isHexChar (c : Char) : Bool :=
  c.isDigit || ('a' ≤ c && c ≤ 'f') || ('A' ≤ c && c ≤ 'F')

/-- Case-insensitive match of one character against a lowercase pattern
character (JS regex `i` flag). -/
def charCI (c t : Char) : Bool :=
  c.toLower = t

/-- The filename regex
`/^[0-9a-f]\x7b8\x7d-[0-9a-f]\x7b4\x7d-[0-9a-f]\x7b4\x7d-[0-9a-f]\x7b4\x7d-[0-9a-f]\x7b12\x7d\.jsonl$/i`
from `getCurrentSessionUsage`, decided on the character list of the name. -/
def uuidJsonlName (s : String) : Bool :=
  let cs := s.toList
  cs.length = 42 &&
  ((cs.take 8).all isHexChar) &&
  (cs.drop 8).take 1 = ['-'] &&
  (((cs.drop 9).take 4).all isHexChar) &&
  (cs.drop 13).take 1 = ['-'] &&
  (((cs.drop 14).take 4).all isHexChar) &&
  (cs.drop 18).take 1 = ['-'] &&
  (((cs.drop 19).take 4).all isHexChar) &&
  (cs.drop 23).take 1 = ['-'] &&
  (((cs.drop 24).take 12).all isHexChar) &&
  (List.zipWith charCI (cs.drop 36) ['.', 'j', 's', 'o', 'n', 'l']).all (· = true)

/-- The main-session filename filter of `getCurrentSessionUsage`: reject
`agent-*` names, then require the UUID pattern. -/
def mainSessionName (name : String) : Bool :=
  if strStartsWith name "agent-" then false
  else uuidJsonlName name

/-- A JSONL log file: basename, modification time (ms), and its lines
(each line `none` when `JSON.parse` would throw on it). -/
structure LogFile where
  name : String
  mtime : Int
  lines : List (Option LogEntry)
  deriving Repr, DecidableEq

/-- An existing directory of the modelled filesystem, with the log files the
recursive walk `findJsonlFiles` would collect under it (flattened; the claims
do not exercise nesting). -/
structure FsDir where
  path : String
  files : List LogFile
  deriving Repr, DecidableEq

/-- Filesystem environment: the candidate config roots in priority order
(environment override, XDG path, legacy path) and the directories that exist. -/
structure FsEnv where
  configPaths : List String
  dirs : List FsDir
  deriving Repr, DecidableEq

/-- Directory lookup: `fs.stat` succeeding with `isDirectory()`. -/
def findDir (env : FsEnv) (p : String) : Option FsDir :=
  env.dirs.find? (fun d => d.path = p)

/-- Embeds `findClaudeDataDirectory`: first candidate root that exists as a
directory. -/
def findClaudeDataDirectory (env : FsEnv) : Option String :=
  env.configPaths.find? (fun p => (findDir env p).isSome)

/-- Embeds `path.join` for the one level of joining the loader performs. -/
def joinPath (a b : String) : String :=
  a ++ "/" ++ b

/-- Embeds `getProjectDataDirectory`: with no workspace name, `null`; otherwise the
project directory under the resolved root, `null` when the root or the
project directory does not exist. -/
def getProjectDataDirectory (projectDirName : Option String) (env : FsEnv) :
    Option String :=
  match projectDirName with
  | none => none
  | some d =>
    match findClaudeDataDirectory env with
    | none => none
    | some base =>
      let pd := joinPath base d
      if (findDir env pd).isSome then some pd else none

/-- Embeds `findJsonlFiles`: the files under a directory whose name ends in
`.jsonl`; an absent directory yields the empty list. -/
def findJsonlFiles (env : FsEnv) (dirPath : String) : List LogFile :=
  match findDir env dirPath with
  | none => []
  | some d => d.files.filter (fun f => strEndsWith f.name ".jsonl")

/-- Embeds `recentFiles.sort((a, b) => b.modified - a.modified)` followed by `[0]`:
with a stable sort this picks the earliest-listed file of maximal mtime. -/
def selectMostRecent (fs : List LogFile) : Option LogFile :=
  fs.foldl
    (fun acc f =>
      match acc with
      | none => some f
      | some b => if f.mtime > b.mtime then some f else some b)
    none

/-- The per-directory part of `getCurrentSessionUsage`: enumerate `.jsonl`
files, keep main-session names, keep files modified within the activity
window, pick the most recently modified one, and scan it.  The second
component is the read trace: the `(directory, basename)` of every log file
whose content is read. -/
def sessionFromDir (env : FsEnv) (dataDir : String) (sessionStart : Int) :
    SessionUsage × List (String × String) :=
  let allJsonlFiles := findJsonlFiles env dataDir
  let mainSessionFiles := allJsonlFiles.filter (fun f => mainSessionName f.name)
  let recentFiles := mainSessionFiles.filter (fun f => f.mtime ≥ sessionStart)
  match selectMostRecent recentFiles with
  | none => (zeroSession, [])
  | some f => (scanSession f.lines, [(dataDir, f.name)])

/-- Embeds `getCurrentSessionUsage` (claudeDataLoader.js v2.7.1): when a workspace
is set, only its project directory is used — a missing project directory
returns the zero snapshot with no fallback; without a workspace the global
root is searched.  Paired with the trace of log files read. -/
def getCurrentSessionUsage (projectDirName : Option String) (env : FsEnv)
    (now sessionDuration : Int) : SessionUsage × List (String × String) :=
  let sessionStart := now - sessionDuration
  match projectDirName with
  | some _ =>
    match getProjectDataDirectory projectDirName env with
    | none => (zeroSession, [])
    | some dataDir => sessionFromDir env dataDir sessionStart
  | none =>
    match findClaudeDataDirectory env with
    | none => (zeroSession, [])
    | some dataDir => sessionFromDir env dataDir sessionStart

/-! ### Session authentication (`auth.js`) -/

/-- A browser cookie as read through `page.cookies`: name and expiry time in
seconds since the epoch (`cookie.expires`). -/
structure Cookie where
  name : String
  expires : Int
  deriving Repr, DecidableEq

/-- Result record of `checkCookie`. -/
structure CookieCheck where
  found : Bool
  expired : Bool
  cookie : Option Cookie
  deriving Repr, DecidableEq

/-- Outcome of the phase-2 `page.evaluate` body in `validateSession`:
the in-page `fetch` returns an ok response, returns an error response,
throws inside the page (caught by the in-page `catch`, which returns
`false`), or the evaluation call itself throws on the extension side. -/
inductive Phase2Outcome where
  | fetchOk
  | httpError
  | fetchThrows
  | evalThrows
  deriving Repr, DecidableEq

/-- The state of an attached browser page as `auth.js` observes it:
whether `page.url()` is already on the claude.ai domain, whether the
cookie-loading navigation (issued only when it is not) succeeds within its
timeout, the cookie jar, and the phase-2 fetch outcome. -/
structure AuthPage where
  onClaudeDomain : Bool
  gotoOk : Bool
  cookies : List Cookie
  phase2 : Phase2Outcome
  deriving Repr, DecidableEq

/-- Embeds `checkCookie` (auth.js); the source field `exists` is modelled
as `found`.  Fail closed (`exists=false, expired=true`) with
no page or on any error (the navigation timeout lands in the `catch`);
otherwise find the `sessionKey` cookie; absent means fail closed; present
means `expired = (expires <= now)` with times in seconds. -/
def checkCookie (page : Option AuthPage) (nowSec : Int) : CookieCheck :=
  match page with
  | none => { found := false, expired := true, cookie := none }
  | some p =>
    if !p.onClaudeDomain && !p.gotoOk then
      { found := false, expired := true, cookie := none }
    else
      match p.cookies.find? (fun c => c.name = "sessionKey") with
      | none => { found := false, expired := true, cookie := none }
      | some c =>
        { found := true, expired := c.expires ≤ nowSec, cookie := some c }

/-- Result record of `validateSession`. -/
structure ValidationResult where
  valid : Bool
  reason : String
  deriving Repr, DecidableEq

/-- The `page.evaluate(async (url) => ...)` call of `validateSession`:
`some b` when the evaluation completes with boolean `b` (an in-page fetch
exception is converted to `false` by the in-page `catch`), `none` when the
evaluation itself throws. -/
def evalFetchOk : Phase2Outcome → Option Bool
  | Phase2Outcome.fetchOk => some true
  | Phase2Outcome.httpError => some false
  | Phase2Outcome.fetchThrows => some false
  | Phase2Outcome.evalThrows => none

/-- Embeds `validateSession` (auth.js): phase 1 is `checkCookie` with short-circuit
returns `no_cookie` / `cookie_expired`; phase 2 issues the credentialed
fetch via `page.evaluate` and maps ok to `valid`, not-ok to
`server_rejected`, and an evaluation exception to `validation_error`.
The second component records whether the phase-2 fetch was issued. -/
def validateSession (page : Option AuthPage) (nowSec : Int) :
    ValidationResult × Bool :=
  match page with
  | none => ({ valid := false, reason := "no_page" }, false)
  | some p =>
    let cc := checkCookie page nowSec
    if !cc.found then
      ({ valid := false, reason := "no_cookie" }, false)
    else if cc.expired then
      ({ valid := false, reason := "cookie_expired" }, false)
    else
      match evalFetchOk p.phase2 with
      | some b =>
        ({ valid := b, reason := if b then "valid" else "server_rejected" }, true)
      | none =>
        ({ valid := false, reason := "validation_error" }, true)

/-! ### Session tracker (`sessionTracker.js`) -/

/-- The `tokenUsage` sub-record of a persisted session; `lastUpdate` is the
update timestamp. -/
structure TokenUsage where
  current : Int
  limit : Int
  remaining : Int
  lastUpdate : Int
  deriving Repr, DecidableEq

/-- One persisted session of `session-data.json`. -/
structure TrackedSession where
  sessionId : String
  startTime : Int
  description : String
  tokenUsage : TokenUsage
  deriving Repr, DecidableEq

/-- The `totals` sub-record of `session-data.json`. -/
structure SessionTotals where
  totalSessions : Nat
  totalTokensUsed : Int
  lastSessionDate : Option Int
  deriving Repr, DecidableEq

/-- Whole contents of `session-data.json`. -/
structure SessionData where
  sessions : List TrackedSession
  totals : SessionTotals
  deriving Repr, DecidableEq

/-- The four mutations `updateTokens` applies to the session object it
selected. -/
def applyTokenUpdate (s : TrackedSession) (tokensUsed limit now : Int) :
    TrackedSession :=
  { s with tokenUsage :=
      { current := tokensUsed, limit := limit,
        remaining := limit - tokensUsed, lastUpdate := now } }

/-- Computes `data.sessions.reduce((sum, s) => sum + (s.tokenUsage.current || 0), 0)`. -/
def sumCurrent (ss : List TrackedSession) : Int :=
  ss.foldl (fun a s => a + s.tokenUsage.current) 0

/-- Embeds `updateTokens` (sessionTracker.js).  `loadData` re-reads and re-parses
the file, so the parsed `data` holds fresh objects: when `this.currentSession`
is set, `session` is the separate in-memory object and the mutations do not
reach `data` — the file is saved with its sessions unchanged and totals
computed from those unchanged sessions.  Only when `currentSession` is null
does `session` alias `data.sessions[last]`, so the mutations land in the
saved file.  With no session at all the function returns without saving.
Result: (new in-memory `currentSession`, persisted file contents). -/
def updateTokens (currentSession : Option TrackedSession) (file : SessionData)
    (tokensUsed limit now : Int) : Option TrackedSession × SessionData :=
  match currentSession with
  | some s =>
    let s' := applyTokenUpdate s tokensUsed limit now
    (some s',
     { file with totals :=
        { file.totals with totalTokensUsed := sumCurrent file.sessions } })
  | none =>
    match file.sessions.getLast? with
    | none => (none, file)
    | some s =>
      let s' := applyTokenUpdate s tokensUsed limit now
      let sessions' := file.sessions.dropLast ++ [s']
      (none,
       { sessions := sessions'
         totals :=
          { file.totals with totalTokensUsed := sumCurrent sessions' } })

/-! ### Usage history (`usageHistory.js`) -/

/-- One data point of the usage-history file. -/
structure HistoryPoint where
  timestamp : Int
  fiveHour : Int
  deriving Repr, DecidableEq

/-- Whole contents of the usage-history file. -/
structure HistoryData where
  dataPoints : List HistoryPoint
  lastUpdated : Option Int
  deriving Repr, DecidableEq

/-- The retention count `this.maxDataPoints = 96`. -/
def maxDataPoints : Nat := 96

/-- Embeds `addDataPoint` (usageHistory.js): push the new point, and when the list
exceeds the retention count keep only the last `maxDataPoints` entries
(`slice(-96)` = drop all but the last 96); `lastUpdated` takes the new
point's timestamp. -/
def addDataPoint (data : HistoryData) (now fiveHour : Int) : HistoryData :=
  let p : HistoryPoint := { timestamp := now, fiveHour := fiveHour }
  let pts := data.dataPoints ++ [p]
  let pts' := if pts.length > maxDataPoints then
      pts.drop (pts.length - maxDataPoints)
    else pts
  { dataPoints := pts', lastUpdated := some now }

/-! ## Concrete fixtures for witnesses and counterexamples -/

/-- A usage object with nonzero input, output and cache fields. -/
def wUsage : Usage :=
  { input_tokens := some 3, output_tokens := some 4,
    cache_creation_input_tokens := some 200,
    cache_read_input_tokens := some 5000 }

/-- A valid assistant log entry carrying `wUsage`. -/
def wAssistant : LogEntry :=
  { type := some "assistant"
    message := some { id := some "m1", model := some "claude-x", usage := some wUsage }
    requestId := some "req-1"
    isApiErrorMessage := false }

/-- A main-session (UUID-named) log file, modified at time 50. -/
def wUuidFile : LogFile :=
  { name := "0123abcd-0000-aaaa-ffff-0123456789ab.jsonl", mtime := 50,
    lines := [some wAssistant] }

/-- An agent log file that is the most recently modified file (time 100). -/
def wAgentFile : LogFile :=
  { name := "agent-9999abcd-0000-aaaa-ffff-0123456789ab.jsonl", mtime := 100,
    lines := [some wAssistant] }

/-- A filesystem with one existing root holding both fixture files. -/
def wEnv : FsEnv :=
  { configPaths := ["/home/u/.claude/projects"]
    dirs := [{ path := "/home/u/.claude/projects",
               files := [wAgentFile, wUuidFile] }] }

/-- A valid event with messageId `a-` and requestId the empty string; its
dedup hash is the string `a--`. -/
def cexRecordA : LogEntry :=
  { type := some "assistant"
    message := some { id := some "a-", model := some "claude-x",
                      usage := some wUsage }
    requestId := some ""
    isApiErrorMessage := false }

/-- A valid event with messageId `a` and requestId `-`; a distinct
(messageId, requestId) key, yet the same dedup hash `a--`. -/
def cexRecordB : LogEntry :=
  { type := some "assistant"
    message := some { id := some "a", model := some "claude-x",
                      usage := some { input_tokens := some 7,
                                      output_tokens := some 1,
                                      cache_creation_input_tokens := some 0,
                                      cache_read_input_tokens := some 0 } }
    requestId := some "-"
    isApiErrorMessage := false }

/-- A session cookie expiring at time 1000 (seconds). -/
def wCookie : Cookie := { name := "sessionKey", expires := 1000 }

/-- A navigable page whose phase-2 fetch throws inside the page. -/
def wPageFetchThrows : AuthPage :=
  { onClaudeDomain := true, gotoOk := true, cookies := [wCookie],
    phase2 := Phase2Outcome.fetchThrows }

/-- A navigable page whose phase-2 fetch returns an ok response. -/
def wPageFetchOk : AuthPage :=
  { onClaudeDomain := true, gotoOk := true, cookies := [wCookie],
    phase2 := Phase2Outcome.fetchOk }

/-- A page whose session cookie expires exactly at time 500. -/
def wPageBoundary : AuthPage :=
  { onClaudeDomain := true, gotoOk := true,
    cookies := [{ name := "sessionKey", expires := 500 }],
    phase2 := Phase2Outcome.fetchOk }

/-- A persisted session whose token counter is still 0. -/
def wTrackedSession : TrackedSession :=
  { sessionId := "session-2025-11-30-001", startTime := 10,
    description := "dev",
    tokenUsage := { current := 0, limit := 190000, remaining := 190000,
                    lastUpdate := 10 } }

/-- A session file holding exactly `wTrackedSession`. -/
def wSessionFile : SessionData :=
  { sessions := [wTrackedSession]
    totals := { totalSessions := 1, totalTokensUsed := 0,
                lastSessionDate := some 10 } }

/-! ## Helper lemmas -/

/-- The accumulator of the `parseJsonlFile` loop only ever receives appends. -/
lemma parseJsonlLoop_acc (lines : List (Option LogEntry)) :
    ∀ acc : List LogEntry, parseJsonlLoop lines acc = acc ++ parseJsonlLoop lines [] := by
  induction lines with
  | nil => intro acc; simp [parseJsonlLoop]
  | cons l ls ih =>
    intro acc
    cases l with
    | none =>
      simp only [parseJsonlLoop]
      exact ih acc
    | some r =>
      by_cases hv : isValidUsageRecord r
      · simp only [parseJsonlLoop, hv, if_true, List.nil_append]
        rw [ih (acc ++ [r]), ih [r]]
        simp
      · simp only [parseJsonlLoop, hv, if_false]
        exact ih acc

/-- Computes `findSome?` past a block of elements on which the function
returns `none`. -/
lemma findSome?_append_of_none {α β : Type} (f : α → Option β) :
    ∀ (l₁ l₂ : List α), (∀ x ∈ l₁, f x = none) →
      (l₁ ++ l₂).findSome? f = l₂.findSome? f := by
  intro l₁
  induction l₁ with
  | nil => intro l₂ _; simp
  | cons a l ih =>
    intro l₂ h
    have ha : f a = none := h a (List.mem_cons_self a l)
    simp only [List.cons_append, List.findSome?, ha]
    exact ih l₂ (fun x hx => h x (List.mem_cons_of_mem a hx))

/-- The accumulator of the dedup loop only ever receives appends. -/
lemma dedupLoop_eq_dedupAux (rs : List LogEntry) :
    ∀ (seen : List String) (acc : List LogEntry),
      dedupLoop rs seen acc = acc ++ dedupAux rs seen := by
  induction rs with
  | nil => intro seen acc; simp [dedupLoop, dedupAux]
  | cons r rs ih =>
    intro seen acc
    by_cases h : getRecordHash r ∈ seen
    · simp only [dedupLoop, dedupAux, h, if_true]
      exact ih seen acc
    · simp only [dedupLoop, dedupAux, h, if_false]
      rw [ih _ (acc ++ [r])]
      simp

/-- The seen-set loop computes exactly the keep-first-by-hash description,
relative to the hashes already seen. -/
lemma dedupAux_eq_keepFirst :
    ∀ (n : Nat) (rs : List LogEntry), rs.length ≤ n → ∀ seen : List String,
      dedupAux rs seen =
        keepFirstByHash (rs.filter (fun x => getRecordHash x ∉ seen)) := by
  intro n
  induction n with
  | zero =>
    intro rs hlen seen
    have : rs = [] := List.length_eq_zero.mp (Nat.le_zero.mp hlen)
    subst this
    simp [dedupAux, keepFirstByHash]
  | succ n ih =>
    intro rs hlen seen
    cases rs with
    | nil => simp [dedupAux, keepFirstByHash]
    | cons r rs =>
      have hlen' : rs.length ≤ n := by
        simpa using Nat.le_of_succ_le_succ (by simpa using hlen)
      by_cases hm : getRecordHash r ∈ seen
      · simp only [dedupAux, hm, if_true]
        rw [ih rs hlen' seen]
        congr 1
        simp [List.filter_cons, hm]
      · simp only [dedupAux, hm, if_false]
        rw [ih rs hlen' (getRecordHash r :: seen)]
        have hcons : (r :: rs).filter (fun x => getRecordHash x ∉ seen) =
            r :: rs.filter (fun x => getRecordHash x ∉ seen) := by
          simp [List.filter_cons, hm]
        rw [hcons, keepFirstByHash]
        congr 1
        rw [List.filter_filter]
        congr 1
        apply List.filter_congr
        intro x _
        by_cases h1 : getRecordHash x = getRecordHash r <;>
          by_cases h2 : getRecordHash x ∈ seen <;>
            simp [h1, h2]

/-- The dedup stage equals the keep-first-by-hash description. -/
lemma dedupeRecords_eq_keepFirst (rs : List LogEntry) :
    dedupeRecords rs = keepFirstByHash rs := by
  unfold dedupeRecords
  rw [dedupLoop_eq_dedupAux, List.nil_append,
    dedupAux_eq_keepFirst rs.length rs le_rfl []]
  congr 1
  simp

/-- Inserting a record whose hash was already seen (either in the seen set
or earlier in the list) does not change the dedup output. -/
lemma dedupAux_insert_dup (r : LogEntry) (b : List LogEntry) :
    ∀ (a : List LogEntry) (seen : List String),
      (getRecordHash r ∈ seen ∨ ∃ x ∈ a, getRecordHash x = getRecordHash r) →
      dedupAux (a ++ r :: b) seen = dedupAux (a ++ b) seen := by
  intro a
  induction a with
  | nil =>
    intro seen h
    have hs : getRecordHash r ∈ seen := by
      rcases h with h | ⟨x, hx, _⟩
      · exact h
      · simp at hx
    simp [dedupAux, hs]
  | cons y a ih =>
    intro seen h
    by_cases hy : getRecordHash y ∈ seen
    · simp only [List.cons_append, dedupAux, hy, if_true]
      apply ih
      rcases h with h | ⟨x, hx, hxr⟩
      · exact Or.inl h
      · rcases List.mem_cons.mp hx with rfl | hx'
        · exact Or.inl (hxr ▸ hy)
        · exact Or.inr ⟨x, hx', hxr⟩
    · simp only [List.cons_append, dedupAux, hy, if_false]
      congr 1
      apply ih
      rcases h with h | ⟨x, hx, hxr⟩
      · exact Or.inl (List.mem_cons_of_mem _ h)
      · rcases List.mem_cons.mp hx with rfl | hx'
        · exact Or.inl (by rw [← hxr]; exact List.mem_cons_self _ _)
        · exact Or.inr ⟨x, hx', hxr⟩

/-- With pairwise-distinct hashes none of which was seen, dedup is the
identity. -/
lemma dedupAux_pairwise (rs : List LogEntry) :
    ∀ seen : List String, (∀ x ∈ rs, getRecordHash x ∉ seen) →
      rs.Pairwise (fun x y => getRecordHash x ≠ getRecordHash y) →
      dedupAux rs seen = rs := by
  induction rs with
  | nil => intro seen _ _; rfl
  | cons r rs ih =>
    intro seen hseen hpw
    have hr : getRecordHash r ∉ seen := hseen r (List.mem_cons_self _ _)
    simp only [dedupAux, hr, if_false]
    congr 1
    apply ih
    · intro x hx hmem
      rcases List.mem_cons.mp hmem with heq | hmem'
      · exact ((List.pairwise_cons.mp hpw).1 x hx) heq.symm
      · exact hseen x (List.mem_cons_of_mem _ hx) hmem'
    · exact (List.pairwise_cons.mp hpw).2

/-- The file picked by `selectMostRecent` is one of the candidates. -/
lemma selectMostRecent_mem (l : List LogFile) (f : LogFile)
    (h : selectMostRecent l = some f) : f ∈ l := by
  suffices H : ∀ (l : List LogFile) (acc : Option LogFile) (f : LogFile),
      l.foldl
        (fun acc g =>
          match acc with
          | none => some g
          | some b => if g.mtime > b.mtime then some g else some b)
        acc = some f → f ∈ l ∨ acc = some f by
    rcases H l none f h with hf | hf
    · exact hf
    · exact absurd hf (by simp)
  intro l
  induction l with
  | nil => intro acc f h; right; simpa using h
  | cons a t ih =>
    intro acc f h
    simp only [List.foldl_cons] at h
    rcases ih _ f h with hf | hf
    · exact Or.inl (List.mem_cons_of_mem a hf)
    · cases acc with
      | none =>
        simp only [] at hf
        exact Or.inl (by simp [← Option.some.inj hf])
      | some b =>
        simp only [] at hf
        by_cases hm : a.mtime > b.mtime
        · rw [if_pos hm] at hf
          exact Or.inl (by simp [← Option.some.inj hf])
        · rw [if_neg hm] at hf
          exact Or.inr hf

/-! ## Claim theorems -/

/-- C5: for every interleaving of malformed lines (failed JSON parse,
modelled `none`, or records failing `isValidUsageRecord`) with valid lines,
`parseJsonlFile` returns exactly the valid subset in file order; a malformed
line is skipped and never prevents any later line from being parsed. -/
theorem parseJsonlFile_valid_subset :
    ∀ lines : List (Option LogEntry),
      parseJsonlFile lines =
        (lines.filterMap id).filter (fun r => isValidUsageRecord r) ∧
      parseJsonlFile (none :: lines) = parseJsonlFile lines := by
  intro lines
  refine ⟨?_, by simp [parseJsonlFile, parseJsonlLoop]⟩
  simp only [parseJsonlFile]
  induction lines with
  | nil => simp [parseJsonlLoop]
  | cons l ls ih =>
    cases l with
    | none =>
      simp only [parseJsonlLoop]
      rw [ih]
      simp
    | some r =>
      by_cases hv : isValidUsageRecord r
      · simp only [parseJsonlLoop, hv, if_true, List.nil_append]
        rw [parseJsonlLoop_acc ls [r], ih]
        simp [List.filter_cons, hv]
      · simp only [parseJsonlLoop, hv, if_false]
        rw [ih]
        simp [List.filter_cons, hv]

/-- C1: if a workspace identity is set and its derived project directory does
not exist under the resolved log root, `getCurrentSessionUsage` returns the
inactive all-zero snapshot and reads no log file from any directory — no
fallback to the global root or another project's directory. -/
theorem getCurrentSessionUsage_missingProjectDir (d : String) (env : FsEnv)
    (now dur : Int)
    (h : ∀ r, findClaudeDataDirectory env = some r →
      findDir env (joinPath r d) = none) :
    getCurrentSessionUsage (some d) env now dur = (zeroSession, []) := by
  have hp : getProjectDataDirectory (some d) env = none := by
    unfold getProjectDataDirectory
    cases hc : findClaudeDataDirectory env with
    | none => rfl
    | some base => simp [h base hc]
  unfold getCurrentSessionUsage
  simp [hp]

/-- Witness for C1: a workspace `/home/u/proj` whose derived directory
`-home-u-proj` is absent, while the global root exists and holds other
files; the result is the zero snapshot with an empty read trace. -/
theorem getCurrentSessionUsage_missingProjectDir_witness :
    getCurrentSessionUsage (some "-home-u-proj") wEnv 1000 7200000 =
      (zeroSession, []) := by
  apply getCurrentSessionUsage_missingProjectDir
  intro r hr
  have hc : findClaudeDataDirectory wEnv = some "/home/u/.claude/projects" := by
    decide
  rw [hc] at hr
  have hr' : "/home/u/.claude/projects" = r := Option.some.inj hr
  rw [← hr']
  decide

/-- C10: every snapshot returned by `getCurrentSessionUsage` carries
`inputTokens = 0` and `outputTokens = 0`, on the active path as well as on
every inactive path. -/
theorem getCurrentSessionUsage_zero_io :
    ∀ (pd : Option String) (env : FsEnv) (now dur : Int),
      (getCurrentSessionUsage pd env now dur).1.inputTokens = 0 ∧
      (getCurrentSessionUsage pd env now dur).1.outputTokens = 0 := by
  intro pd env now dur
  have hscan : ∀ lines : List (Option LogEntry),
      (scanSession lines).inputTokens = 0 ∧
      (scanSession lines).outputTokens = 0 := by
    intro lines
    unfold scanSession
    cases lines.reverse.findSome? qualifyingCache with
    | none => simp [zeroSession]
    | some p => cases p; simp
  have hdir : ∀ (dd : String) (ss : Int),
      (sessionFromDir env dd ss).1.inputTokens = 0 ∧
      (sessionFromDir env dd ss).1.outputTokens = 0 := by
    intro dd ss
    unfold sessionFromDir
    dsimp only
    split
    · simp [zeroSession]
    · next f heq => simpa using hscan f.lines
  unfold getCurrentSessionUsage
  dsimp only
  split
  · split
    · simp [zeroSession]
    · next dd heq => simpa using hdir dd _
  · split
    · simp [zeroSession]
    · next dd heq => simpa using hdir dd _

/-- C3: any log file whose content `getCurrentSessionUsage` reads has a
basename that does not start with the reserved `agent-` prefix and does
match the canonical UUID filename pattern — excluded files are filtered out
before the most-recently-modified file is chosen. -/
theorem getCurrentSessionUsage_reads_mainSession_only (pd : Option String)
    (env : FsEnv) (now dur : Int) (dir name : String)
    (h : (dir, name) ∈ (getCurrentSessionUsage pd env now dur).2) :
    strStartsWith name "agent-" = false ∧ uuidJsonlName name = true := by
  have key : ∀ (dd : String) (ss : Int),
      (dir, name) ∈ (sessionFromDir env dd ss).2 →
      strStartsWith name "agent-" = false ∧ uuidJsonlName name = true := by
    intro dd ss hmem
    unfold sessionFromDir at hmem
    dsimp only at hmem
    split at hmem
    · simp at hmem
    · next f hsel =>
      simp only [List.mem_singleton, Prod.mk.injEq] at hmem
      obtain ⟨-, hname⟩ := hmem
      have hf := selectMostRecent_mem _ _ hsel
      have hmain : mainSessionName f.name = true := by
        have := List.mem_filter.mp (List.mem_filter.mp hf).1
        exact this.2
      subst hname
      unfold mainSessionName at hmain
      by_cases hag : strStartsWith f.name "agent-"
      · rw [if_pos hag] at hmain
        exact absurd hmain (by simp)
      · rw [if_neg hag] at hmain
        exact ⟨by simpa using hag, hmain⟩
  unfold getCurrentSessionUsage at h
  dsimp only at h
  split at h
  · split at h
    · simp at h
    · next dd heq => exact key dd _ h
  · split at h
    · simp at h
    · next dd heq => exact key dd _ h

/-- Witness for C3: in a directory where an `agent-` file is the most
recently modified file, the file actually read is the UUID-named one. -/
theorem getCurrentSessionUsage_reads_mainSession_only_witness :
    (("/home/u/.claude/projects",
      "0123abcd-0000-aaaa-ffff-0123456789ab.jsonl") ∈
        (getCurrentSessionUsage none wEnv 1000 2000).2) ∧
    (strStartsWith "0123abcd-0000-aaaa-ffff-0123456789ab.jsonl" "agent-" = false ∧
      uuidJsonlName "0123abcd-0000-aaaa-ffff-0123456789ab.jsonl" = true) :=
  ⟨by decide,
   getCurrentSessionUsage_reads_mainSession_only none wEnv 1000 2000
     "/home/u/.claude/projects" "0123abcd-0000-aaaa-ffff-0123456789ab.jsonl"
     (by decide)⟩

/-- C2 (amended): the scan of the selected log file is determined by the
last qualifying line — any decomposition `pre ++ l :: post` where `l`
qualifies with cache fields `(cc, cr)` and nothing in `post` qualifies
yields `totalTokens = cr` (cache-read alone), the two cache fields of `l`,
`isActive` iff `cr > 0`, and `messageCount` equal to the total line count;
earlier matches are not aggregated; with no qualifying line at all the
result is the inactive zero snapshot, not an error. -/
theorem scanSession_lastQualifying :
    (∀ (pre post : List (Option LogEntry)) (l : Option LogEntry) (cc cr : Int),
        qualifyingCache l = some (cc, cr) →
        (∀ x ∈ post, qualifyingCache x = none) →
        scanSession (pre ++ l :: post) =
          { totalTokens := cr, inputTokens := 0, outputTokens := 0,
            cacheCreationTokens := cc, cacheReadTokens := cr,
            messageCount := (pre ++ l :: post).length,
            isActive := decide (cr > 0) }) ∧
    (∀ lines : List (Option LogEntry),
        (∀ x ∈ lines, qualifyingCache x = none) →
        scanSession lines = zeroSession) := by
  constructor
  · intro pre post l cc cr hq hpost
    unfold scanSession
    have hrev : (pre ++ l :: post).reverse =
        post.reverse ++ (l :: pre.reverse) := by
      simp [List.reverse_append]
    rw [hrev]
    rw [findSome?_append_of_none qualifyingCache post.reverse (l :: pre.reverse)
      (fun x hx => hpost x (List.mem_reverse.mp hx))]
    have hhd : (l :: pre.reverse).findSome? qualifyingCache = some (cc, cr) := by
      simp [List.findSome?, hq]
    rw [hhd]
  · intro lines hall
    unfold scanSession
    have hnone : lines.reverse.findSome? qualifyingCache = none := by
      have h0 := findSome?_append_of_none qualifyingCache lines.reverse []
        (fun x hx => hall x (List.mem_reverse.mp hx))
      simpa [List.findSome?] using h0
    rw [hnone]

/-- Counterexample for C2 as stated: a malformed line appended after the
qualifying assistant line changes the returned snapshot (`messageCount` is
the total line count), so lines after the qualifying line do affect the
result. -/
theorem scanSession_trailing_line_changes_result :
    qualifyingCache (some wAssistant) = some (200, 5000) ∧
    qualifyingCache (none : Option LogEntry) = none ∧
    (scanSession [some wAssistant]).messageCount = 1 ∧
    (scanSession [some wAssistant, none]).messageCount = 2 ∧
    scanSession [some wAssistant] ≠ scanSession [some wAssistant, none] := by
  decide

/-- Witness for C2 (amended): a file whose qualifying assistant line sits
between a malformed line before and one after reports cacheRead 5000 as the
total with 3 lines counted. -/
theorem scanSession_lastQualifying_witness :
    scanSession [none, some wAssistant, none] =
      { totalTokens := 5000, inputTokens := 0, outputTokens := 0,
        cacheCreationTokens := 200, cacheReadTokens := 5000,
        messageCount := 3, isActive := true } := by
  have h := scanSession_lastQualifying.1 [none] [none] (some wAssistant) 200 5000
    (by decide) (by decide)
  simpa using h

/-- C6 (amended): `validateSession` is two-phase with short-circuit — no
cookie gives `no_cookie` and an expired cookie gives `cookie_expired`, in
both cases without issuing the phase-2 fetch; once phase 1 passes, the
single fetch is issued and an ok response gives `valid`, an error HTTP
response gives `server_rejected`, a fetch exception inside the page is
converted to a failed response by the in-page catch and also gives
`server_rejected`, and only an exception of the evaluation call itself
gives `validation_error`. -/
theorem validateSession_twoPhase :
    (∀ (p : AuthPage) (now : Int),
        p.cookies.find? (fun c => c.name = "sessionKey") = none →
        validateSession (some p) now =
          ({ valid := false, reason := "no_cookie" }, false)) ∧
    (∀ (p : AuthPage) (now : Int) (c : Cookie),
        (p.onClaudeDomain || p.gotoOk) = true →
        p.cookies.find? (fun k => k.name = "sessionKey") = some c →
        c.expires ≤ now →
        validateSession (some p) now =
          ({ valid := false, reason := "cookie_expired" }, false)) ∧
    (∀ (p : AuthPage) (now : Int) (c : Cookie),
        (p.onClaudeDomain || p.gotoOk) = true →
        p.cookies.find? (fun k => k.name = "sessionKey") = some c →
        ¬ c.expires ≤ now →
        validateSession (some p) now =
          (match p.phase2 with
           | Phase2Outcome.fetchOk => ({ valid := true, reason := "valid" }, true)
           | Phase2Outcome.httpError =>
              ({ valid := false, reason := "server_rejected" }, true)
           | Phase2Outcome.fetchThrows =>
              ({ valid := false, reason := "server_rejected" }, true)
           | Phase2Outcome.evalThrows =>
              ({ valid := false, reason := "validation_error" }, true))) := by
  refine ⟨?_, ?_, ?_⟩
  · intro p now hfind
    unfold validateSession checkCookie
    dsimp only
    split
    · simp
    · rw [hfind]
      simp
  · intro p now c hnav hfind hexp
    unfold validateSession checkCookie
    dsimp only
    split
    · next hq =>
      cases hd : p.onClaudeDomain <;> cases hg : p.gotoOk <;>
        simp_all
    · rw [hfind]
      simp [hexp]
  · intro p now c hnav hfind hexp
    unfold validateSession checkCookie
    dsimp only
    split
    · next hq =>
      cases hd : p.onClaudeDomain <;> cases hg : p.gotoOk <;>
        simp_all
    · rw [hfind]
      simp only [hexp]
      unfold evalFetchOk
      cases p.phase2 <;> simp [hexp]

/-- Counterexample for C6 as stated: with a present, unexpired cookie and a
phase-2 fetch that throws inside the page, the reason is `server_rejected`,
not `validation_error` — the in-page catch converts the fetch exception to
a failed response before the extension-side handler can see it. -/
theorem validateSession_fetchThrows_not_validation_error :
    (validateSession (some wPageFetchThrows) 500).1.reason = "server_rejected" ∧
    ¬ (validateSession (some wPageFetchThrows) 500).1.reason =
      "validation_error" := by
  decide

/-- Witness for C6 (amended): a page with a live cookie and an ok phase-2
response validates with reason `valid` and the fetch issued. -/
theorem validateSession_twoPhase_witness :
    validateSession (some wPageFetchOk) 500 =
      ({ valid := true, reason := "valid" }, true) := by
  have h := validateSession_twoPhase.2.2 wPageFetchOk 500 wCookie
    (by decide) (by decide) (by decide)
  simpa [wPageFetchOk] using h

/-- C7: `checkCookie` reports the cookie expired iff its expiry timestamp is
at or before the current time (inclusive boundary), and fails closed with
`exists=false, expired=true` with no attached page or when the cookie-loading
navigation fails. -/
theorem checkCookie_expiry_inclusive :
    (∀ (p : AuthPage) (now : Int) (c : Cookie),
        (p.onClaudeDomain || p.gotoOk) = true →
        p.cookies.find? (fun k => k.name = "sessionKey") = some c →
        checkCookie (some p) now =
          { found := true, expired := decide (c.expires ≤ now),
            cookie := some c }) ∧
    (∀ now : Int, checkCookie none now =
        { found := false, expired := true, cookie := none }) ∧
    (∀ (p : AuthPage) (now : Int),
        p.onClaudeDomain = false → p.gotoOk = false →
        checkCookie (some p) now =
          { found := false, expired := true, cookie := none }) := by
  refine ⟨?_, ?_, ?_⟩
  · intro p now c hnav hfind
    unfold checkCookie
    dsimp only
    split
    · next hq =>
      cases hd : p.onClaudeDomain <;> cases hg : p.gotoOk <;>
        simp_all
    · rw [hfind]
  · intro now
    rfl
  · intro p now hd hg
    unfold checkCookie
    dsimp only
    split
    · rfl
    · next hq => simp_all

/-- Witness for C7: a cookie whose expiry exactly equals the current time is
already expired, and the no-page path fails closed. -/
theorem checkCookie_expiry_inclusive_witness :
    (checkCookie (some wPageBoundary) 500).expired = true ∧
    checkCookie none 500 =
      { found := false, expired := true, cookie := none } := by
  constructor
  · have h := checkCookie_expiry_inclusive.1 wPageBoundary 500
      { name := "sessionKey", expires := 500 } (by decide) (by decide)
    rw [h]
    decide
  · exact checkCookie_expiry_inclusive.2.1 500

/-- C8: evaluation at the failing input — with `currentSession` set in
memory (a session started in the same process), `updateTokens 500` leaves
the persisted session's `tokenUsage.current` at 0 because the mutation hits
the in-memory object and not the freshly parsed file data, while the
restart path (`currentSession` null) does persist 500. -/
theorem updateTokens_inMemory_not_persisted :
    ((updateTokens (some wTrackedSession) wSessionFile 500 190000 20).2.sessions.map
        (fun s => s.tokenUsage.current) = [0]) ∧
    ((updateTokens (some wTrackedSession) wSessionFile 500 190000 20).1 =
        some (applyTokenUpdate wTrackedSession 500 190000 20)) ∧
    ((updateTokens none wSessionFile 500 190000 20).2.sessions.map
        (fun s => s.tokenUsage.current) = [500]) := by
  decide

/-- C4 (amended): deduplication keys on the hash string
`messageId + "-" + requestId`, not on the pair — the totals equal those of
the input with later same-hash duplicates removed keeping the first
occurrence, duplicating any event leaves the result unchanged, and events
with pairwise-distinct hashes are never suppressed. -/
theorem loadUsageRecords_dedup :
    (∀ rs : List LogEntry,
        loadTotals rs = aggregateRecords (keepFirstByHash rs)) ∧
    (∀ (a b : List LogEntry) (r : LogEntry),
        (∃ x ∈ a, getRecordHash x = getRecordHash r) →
        loadTotals (a ++ r :: b) = loadTotals (a ++ b)) ∧
    (∀ rs : List LogEntry,
        rs.Pairwise (fun x y => getRecordHash x ≠ getRecordHash y) →
        dedupeRecords rs = rs) := by
  refine ⟨?_, ?_, ?_⟩
  · intro rs
    unfold loadTotals
    rw [dedupeRecords_eq_keepFirst]
  · intro a b r h
    unfold loadTotals dedupeRecords
    rw [dedupLoop_eq_dedupAux, dedupLoop_eq_dedupAux, List.nil_append,
      List.nil_append, dedupAux_insert_dup r b a [] (Or.inr h)]
  · intro rs hpw
    unfold dedupeRecords
    rw [dedupLoop_eq_dedupAux, List.nil_append]
    exact dedupAux_pairwise rs [] (by simp) hpw

/-- Counterexample for C4 as stated: `cexRecordA` and `cexRecordB` are valid
events with distinct `(messageId, requestId)` keys, yet their hash strings
collide (`"a-" + "-" + ""` and `"a" + "-" + "-"` are both `a--`), so the
second is suppressed as a duplicate of the first: the aggregate counts one
message and drops the second event's tokens. -/
theorem loadTotals_distinct_keys_suppressed :
    isValidUsageRecord cexRecordA = true ∧
    isValidUsageRecord cexRecordB = true ∧
    (cexRecordA.message.bind Message.id, cexRecordA.requestId) ≠
      (cexRecordB.message.bind Message.id, cexRecordB.requestId) ∧
    getRecordHash cexRecordA = getRecordHash cexRecordB ∧
    dedupeRecords [cexRecordA, cexRecordB] = [cexRecordA] ∧
    (loadTotals [cexRecordA, cexRecordB]).messageCount = 1 ∧
    (loadTotals [cexRecordA, cexRecordB]).inputTokens = 3 := by
  decide

/-- Witness for C4 (amended): duplicating an event leaves the totals
unchanged, and a two-event list with distinct hashes is kept intact. -/
theorem loadUsageRecords_dedup_witness :
    loadTotals [wAssistant, wAssistant] = loadTotals [wAssistant] ∧
    dedupeRecords [cexRecordA, wAssistant] = [cexRecordA, wAssistant] := by
  constructor
  · have h := loadUsageRecords_dedup.2.1 [wAssistant] [] wAssistant
      ⟨wAssistant, by simp, rfl⟩
    simpa using h
  · exact loadUsageRecords_dedup.2.2 [cexRecordA, wAssistant]
      (by simp [List.pairwise_cons]; decide)

/-- C9: every `addDataPoint` call preserves the retention invariant — the
persisted list has at most `maxDataPoints` (96) entries, ends with the newly
added point, and is a suffix of the previous list extended by that point. -/
theorem addDataPoint_retention :
    ∀ (d : HistoryData) (now v : Int),
      (addDataPoint d now v).dataPoints.length ≤ maxDataPoints ∧
      (addDataPoint d now v).dataPoints.getLast? =
        some { timestamp := now, fiveHour := v } ∧
      List.IsSuffix (addDataPoint d now v).dataPoints
        (d.dataPoints ++ [{ timestamp := now, fiveHour := v }]) := by
  intro d now v
  set p : HistoryPoint := { timestamp := now, fiveHour := v } with hp
  set pts := d.dataPoints ++ [p] with hpts
  by_cases hlen : pts.length > maxDataPoints
  · have hdp : (addDataPoint d now v).dataPoints =
        pts.drop (pts.length - maxDataPoints) := by
      simp [addDataPoint, ← hpts, hlen, hp]
    refine ⟨?_, ?_, ?_⟩
    · rw [hdp, List.length_drop]
      omega
    · rw [hdp]
      have hsplit : pts.take (pts.length - maxDataPoints) ++
          pts.drop (pts.length - maxDataPoints) = pts := List.take_append_drop _ _
      have hne : pts.drop (pts.length - maxDataPoints) ≠ [] := by
        have : (pts.drop (pts.length - maxDataPoints)).length = maxDataPoints := by
          rw [List.length_drop]; omega
        intro hnil
        rw [hnil] at this
        simp [maxDataPoints] at this
      have hlast : pts.getLast? = some p := by
        rw [hpts]; exact List.getLast?_concat _
      have h1 : (pts.take (pts.length - maxDataPoints) ++
          pts.drop (pts.length - maxDataPoints)).getLast? =
          (pts.drop (pts.length - maxDataPoints)).getLast? :=
        List.getLast?_append_of_ne_nil _ hne
      rw [hsplit] at h1
      rw [← h1]
      exact hlast
    · rw [hdp, hpts]
      exact List.drop_suffix _ _
  · have hdp : (addDataPoint d now v).dataPoints = pts := by
      simp [addDataPoint, ← hpts, hlen, hp]
    refine ⟨?_, ?_, ?_⟩
    · rw [hdp]; omega
    · rw [hdp, hpts]; exact List.getLast?_concat _
    · rw [hdp, hpts]

end ClaudeMonitor
